import Mathlib

set_option maxRecDepth 16384

/-!
Verification of the `ai-mobile-pr-reviewer` pipeline.

Shallow embedding of the Python sources under `scripts/`:
`config.py`, `file_filter.py`, `http_client.py`, `prompt_builder.py`,
`rubric_loader.py`, `reviewer.py`, `slack_client.py`, `main.py`.

Python strings are modelled as `String` at the pipeline level and as
`List Char` inside the character-level algorithms (regex-like scanning,
`splitlines`, trimming).  Character classes (`\s`, `\w`, lower-casing)
are modelled over ASCII, which covers every literal the program matches
against.  Machine integers stay `Nat`/`Int` (no overflow is possible in
the modelled code paths).  Network and model calls are oracles passed in
as explicit parameters; exceptions are `Except`.
-/

namespace PRReviewerModel

/-! ### Python string primitives -/

/-- ASCII lower-casing, as used by `str.lower()` and `re.IGNORECASE`
on the ASCII literals this program matches. -/
def lowerChar (c : Char) : Char :=
  if 'A' ≤ c ∧ c ≤ 'Z' then Char.ofNat (c.toNat + 32) else c

/-- Python `\s` / `str.strip()` whitespace (ASCII fragment). -/
def isPySpace (c : Char) : Bool :=
  c = ' ' || c = '\t' || c = '\n' || c = '\r' || c = '\x0b' || c = '\x0c'

/-- Python word character (`\w`, ASCII fragment): letters, digits, underscore. -/
def isWordChar (c : Char) : Bool :=
  c.isAlphanum || c = '_'

/-- Line-boundary characters recognized by Python `str.splitlines`. -/
def isLineBreakChar (c : Char) : Bool :=
  c = '\n' || c = '\r' || c = '\x0b' || c = '\x0c' ||
  c = '\x1c' || c = '\x1d' || c = '\x1e' || c = '\u0085' ||
  c = ' ' || c = ' '

/-- Python `str.splitlines()`: split at line boundaries, treating `\r\n`
as a single boundary, with no trailing empty line for a trailing boundary. -/
def pySplitlines : List Char → List (List Char)
  | [] => []
  | [c] => if isLineBreakChar c then [[]] else [[c]]
  | c :: c2 :: cs =>
    if c = '\r' ∧ c2 = '\n' then [] :: pySplitlines cs
    else if isLineBreakChar c then [] :: pySplitlines (c2 :: cs)
    else
      match pySplitlines (c2 :: cs) with
      | [] => [[c]]
      | l :: ls => (c :: l) :: ls

/-- `"\n".join(lines)` on character lists. -/
def joinNL : List (List Char) → List Char
  | [] => []
  | [l] => l
  | l :: l' :: ls => l ++ '\n' :: joinNL (l' :: ls)

/-- Total number of characters in a list of lines. -/
def sumLens (ls : List (List Char)) : Nat :=
  (ls.map List.length).sum

/-- `sep.join(items)` on strings. -/
def pyJoin (sep : String) : List String → String
  | [] => ""
  | [x] => x
  | x :: y :: xs => x ++ sep ++ pyJoin sep (y :: xs)

/-- `str.strip()` (ASCII whitespace fragment). -/
def stripChars (l : List Char) : List Char :=
  ((l.dropWhile isPySpace).reverse.dropWhile isPySpace).reverse

/-- `str.strip()` on `String`. -/
def pyStripStr (s : String) : String :=
  (stripChars s.toList).asString

/-- `str.rstrip()` (ASCII whitespace fragment). -/
def rstripChars (l : List Char) : List Char :=
  (l.reverse.dropWhile isPySpace).reverse

/-- Case-insensitive (when `ci = true`) or exact character comparison,
modelling how `re.IGNORECASE` compares a pattern literal to text. -/
def charEq (ci : Bool) (a b : Char) : Bool :=
  if ci then lowerChar a = lowerChar b else a = b

/-- Does the pattern literal `pat` match at the head of the text `t`
(character-wise, case-insensitively when `ci`)? -/
def prefEq (ci : Bool) : List Char → List Char → Bool
  | [], _ => true
  | _ :: _, [] => false
  | a :: as, b :: bs => charEq ci a b && prefEq ci as bs

/-- Try a position predicate at every suffix of the text
(`re.search` over all start positions, truthiness only). -/
def searchAny (p : List Char → Bool) : List Char → Bool
  | [] => p []
  | c :: rest => p (c :: rest) || searchAny p rest

/-- Like `searchAny`, also providing the character immediately before the
current position (`none` at the start of the text), for patterns with a
look-behind-style anchor such as `(^|/)` or a leading `\b`. -/
def searchWithPrev (p : Option Char → List Char → Bool) :
    Option Char → List Char → Bool
  | prev, [] => p prev []
  | prev, c :: rest => p prev (c :: rest) || searchWithPrev p (some c) rest

/-- Word-ness of an optional character (`none` = outside the string). -/
def isWordCharO : Option Char → Bool
  | none => false
  | some c => isWordChar c

/-- `\b`: a word boundary sits between two adjacent positions iff exactly
one of the two surrounding characters is a word character. -/
def bnd (a b : Option Char) : Bool :=
  isWordCharO a != isWordCharO b

/-- Search for the regex `\b<w>\b` (the literal `w` between two word
boundaries), case-insensitively when `ci`. -/
def bWordSearch (ci : Bool) (w : List Char) (s : List Char) : Bool :=
  searchWithPrev
    (fun prev t =>
      prefEq ci w t && bnd prev t.head? &&
      bnd ((t.take w.length).getLast?) ((t.drop w.length).head?))
    none s

/-- The Python regex `$` (no MULTILINE): end of string, or just before a
single trailing newline. -/
def endAnchor (rest : List Char) : Bool :=
  rest = [] || rest = ['\n']

/-! ### `file_filter.py` — FileFilter -/

/-- Comma-split, strip, and drop empty parts, as in
`[p.strip() for p in globs.split(",") if p.strip()]`. -/
def splitCommaAux (cur : List Char) : List Char → List (List Char)
  | [] => [cur.reverse]
  | ',' :: rest => cur.reverse :: splitCommaAux [] rest
  | c :: rest => splitCommaAux (c :: cur) rest

/-- `globs.split(",")` then strip each part and keep the non-empty ones. -/
def globParts (globs : List Char) : List (List Char) :=
  ((splitCommaAux [] globs).map stripChars).filter (fun p => !p.isEmpty)

/-- The tails of `s` reachable by `.*` (a greedy run of non-newline
characters): `s` itself, and every tail obtained by consuming a prefix
that contains no newline. -/
def starTails : List Char → List (List Char)
  | [] => [[]]
  | c :: rest => (c :: rest) :: (if c = '\n' then [] else starTails rest)

/-- Match one translated glob at the head of `s` and require the `$`
anchor at its end.  `FileFilter._compile_glob_regex` rewrites `.` to `\.`
and `*` to `.*`, so a `*` matches any run of non-newline characters and
every other glob character is a case-insensitive literal. -/
def matchGlob : List Char → List Char → Bool
  | [], s => endAnchor s
  | '*' :: pat, s => (starTails s).any (fun t => matchGlob pat t)
  | c :: pat, s =>
    match s with
    | [] => false
    | b :: rest => charEq true c b && matchGlob pat rest

/-- `GLOB_RE.search(filename)`: some part matches at some start position. -/
def globSearch (parts : List (List Char)) (s : List Char) : Bool :=
  parts.any (fun part => searchAny (fun t => matchGlob part t) s)

/-- Directory names of the first ignore pattern
`(^|/)(dist|build|outputs|out|coverage|node_modules|Pods|vendor|\.git)/`. -/
def ignoreDirs : List (List Char) :=
  ["dist/", "build/", "outputs/", "out/", "coverage/", "node_modules/",
   "Pods/", "vendor/", ".git/"].map String.toList

/-- Extensions of the ignore pattern
`\.(min\.js|lock|png|jpg|jpeg|gif|svg|ico|pdf|zip|gz|tgz|jar|aab|apk|mp3|mp4|mov|webm|woff2?)$`
(`woff2?` expanded to its two alternatives). -/
def ignoreExts : List (List Char) :=
  ["min.js", "lock", "png", "jpg", "jpeg", "gif", "svg", "ico", "pdf",
   "zip", "gz", "tgz", "jar", "aab", "apk", "mp3", "mp4", "mov", "webm",
   "woff", "woff2"].map String.toList

/-- Lock-file names of the ignore pattern
`(^|/)(package-lock\.json|yarn\.lock|pnpm-lock\.yaml|composer\.lock)$`. -/
def ignoreLockNames : List (List Char) :=
  ["package-lock.json", "yarn.lock", "pnpm-lock.yaml", "composer.lock"].map
    String.toList

/-- IDE/metadata directories of the ignore pattern `(^|/)(\.gradle/|\.idea/|\.vs/)`. -/
def ignoreMetaDirs : List (List Char) :=
  [".gradle/", ".idea/", ".vs/"].map String.toList

/-- Search for `(^|/)<needle>` (case-insensitively), i.e. the needle occurs
at the start of the string or right after a `/`. -/
def slashAnchoredSearch (needles : List (List Char)) (s : List Char) : Bool :=
  searchWithPrev
    (fun prev t =>
      (prev = none || prev = some '/') && needles.any (fun n => prefEq true n t))
    none s

/-- Search for `(^|/)<needle>$` (case-insensitively). -/
def slashAnchoredEndSearch (needles : List (List Char)) (s : List Char) : Bool :=
  searchWithPrev
    (fun prev t =>
      (prev = none || prev = some '/') &&
      needles.any (fun n => prefEq true n t && endAnchor (t.drop n.length)))
    none s

/-- Search for `\.(<ext1>|...|<extN>)$` (case-insensitively). -/
def dotExtEndSearch (exts : List (List Char)) (s : List Char) : Bool :=
  searchAny
    (fun t =>
      match t with
      | '.' :: r => exts.any (fun e => prefEq true e r && endAnchor (r.drop e.length))
      | _ => false)
    s

/-- `any(re.search(p, filename, re.IGNORECASE) for p in self.ignore_patterns)`. -/
def ignoreMatch (filename : List Char) : Bool :=
  slashAnchoredSearch ignoreDirs filename ||
  slashAnchoredSearch [("DerivedData/").toList] filename ||
  dotExtEndSearch ignoreExts filename ||
  slashAnchoredEndSearch ignoreLockNames filename ||
  slashAnchoredSearch ignoreMetaDirs filename

/-- `FileFilter.is_ignored`, with the filter's configured glob string as
first argument (the compiled `glob_re` is `None` exactly when
`globParts` is empty). -/
def is_ignored (globs filename : String) : Bool :=
  if ignoreMatch filename.toList then true
  else if !(globParts globs.toList).isEmpty &&
          !globSearch (globParts globs.toList) filename.toList then true
  else false

/-- The line-trim suffix appended by `sanitize_patch`; the source literal
is the mojibake `" â€¦(trimmed)"` (U+00E2 U+20AC U+00A6), 13 characters. -/
def trimmedSuffix : List Char :=
  (" â€¦(trimmed)").toList

/-- Per-line trimming of `sanitize_patch`: lines longer than 2000
characters are cut to 2000 characters and marked. -/
def trimLine (l : List Char) : List Char :=
  if 2000 < l.length then l.take 2000 ++ trimmedSuffix else l

/-- The `out_lines` list of `FileFilter.sanitize_patch`: the patch is cut
to `max_chars` characters, split into lines, and each line trimmed. -/
def sanitizeLines (patch : String) (max_chars : Nat) : List (List Char) :=
  (pySplitlines (patch.toList.take max_chars)).map trimLine

/-- `FileFilter.sanitize_patch`. -/
def sanitize_patch (patch : String) (max_chars : Nat) : String :=
  if patch = "" then ""
  else (joinNL (sanitizeLines patch max_chars)).asString

/-- Number of lines of the truncated patch that exceed 2000 characters
(each gets one trim suffix appended). -/
def overLongCount (patch : String) (max_chars : Nat) : Nat :=
  (pySplitlines (patch.toList.take max_chars)).countP (fun l => 2000 < l.length)

/-! ### `reviewer.py` — risk-label parser -/

/-- The three levels of the alternation `(Low|Medium|High)`. -/
inductive RiskLevel where
  | low
  | medium
  | high
deriving DecidableEq, Repr

/-- `match.group(1).strip().lower()`: the matched alternative, lower-cased. -/
def lvlString : RiskLevel → String
  | .low => "low"
  | .medium => "medium"
  | .high => "high"

/-- Try the regex `Risk Assessment:\s*(Low|Medium|High)` (IGNORECASE) at the
head of `t`.  `\s*` is greedy; since no alternative begins with whitespace,
only the maximal whitespace run can precede a match. -/
def tryRiskAt (t : List Char) : Option RiskLevel :=
  if prefEq true ("Risk Assessment:").toList t then
    let r := (t.drop 16).dropWhile isPySpace
    if prefEq true ("Low").toList r then some .low
    else if prefEq true ("Medium").toList r then some .medium
    else if prefEq true ("High").toList r then some .high
    else none
  else none

/-- `re.search` for the risk-assessment pattern: first (leftmost) match. -/
def riskFind : List Char → Option RiskLevel
  | [] => none
  | c :: rest =>
    match tryRiskAt (c :: rest) with
    | some l => some l
    | none => riskFind rest

/-- The fallback scan `re.search(r"\bHigh risk\b", review, re.IGNORECASE)`. -/
def highRiskStandalone (s : List Char) : Bool :=
  bWordSearch true ("High risk").toList s

/-- `PRReviewer.parse_risk_level`. -/
def parse_risk_level (review : String) : String :=
  match riskFind review.toList with
  | some l => lvlString l
  | none => if highRiskStandalone review.toList then "high" else "low"

/-! ### `prompt_builder.py` — PromptBuilder -/

/-- A prepared file record, as appended to `prepared` by `PRReviewer.run`. -/
structure Prepared where
  filename : String
  status : Option String
  additions : Option Int
  deletions : Option Int
  patch : String
deriving DecidableEq, Repr

/-- `f"{x}"` on an optional string field (`None` prints as `"None"`). -/
def optStr : Option String → String
  | none => "None"
  | some s => s

/-- `f"{x}"` on an optional integer field. -/
def optInt : Option Int → String
  | none => "None"
  | some i => toString i

/-- The search `re.search(r"\.(kt|kts|java)\b", names)` (case-sensitive):
a dot, one of the extensions, then a word boundary. -/
def dotExtWordSearch (exts : List (List Char)) (s : List Char) : Bool :=
  searchAny
    (fun t =>
      match t with
      | '.' :: r =>
        exts.any (fun e => prefEq false e r && !isWordCharO ((r.drop e.length).head?))
      | _ => false)
    s

/-- The six hint conditions of `PromptBuilder.detect_mobile_context`,
evaluated on the space-joined filename string, appended in source order. -/
def hintsOf (file_summaries : List Prepared) : List String :=
  let names := (pyJoin " " (file_summaries.map (fun f => f.filename))).toList
  (if dotExtWordSearch [("kt").toList, ("kts").toList, ("java").toList] names
   then ["Android/Kotlin"] else []) ++
  (if bWordSearch true ("compose").toList names ||
      bWordSearch true ("@Composable").toList names
   then ["Jetpack Compose"] else []) ++
  (if dotExtWordSearch [("swift").toList, ("mm").toList, ("m").toList] names
   then ["iOS/Swift"] else []) ++
  (if bWordSearch false ("SwiftUI").toList names ||
      bWordSearch false ("@StateObject").toList names ||
      bWordSearch false ("@State").toList names
   then ["SwiftUI"] else []) ++
  (if bWordSearch true ("gradle.kts").toList names ||
      bWordSearch true ("gradle").toList names ||
      bWordSearch true ("proguard").toList names
   then ["Gradle/ProGuard"] else []) ++
  (if bWordSearch false ("plist").toList names then ["Info.plist"] else [])

/-- `PromptBuilder.detect_mobile_context`:
`", ".join(sorted(set(hints))) or "Mobile (Android/iOS) code"`. -/
def detect_mobile_context (file_summaries : List Prepared) : String :=
  let joined :=
    pyJoin ", " (List.insertionSort (· ≤ ·) (hintsOf file_summaries).dedup)
  if joined = "" then "Mobile (Android/iOS) code" else joined

/-- One per-file block of `make_prompt` (the f-string, then `.rstrip()`). -/
def fileBlock (f : Prepared) : String :=
  (rstripChars
    ("FILE: " ++ f.filename ++
     "\nSTATUS: " ++ optStr f.status ++
     "\nCHANGES: +" ++ optInt f.additions ++ " / -" ++ optInt f.deletions ++
     "\nPATCH (trimmed):\n" ++ f.patch ++ "\n").toList).asString

/-- The fixed `mobile_guidance` block of `PromptBuilder.make_prompt`. -/
def mobileGuidance : String :=
  "\nYou are an expert senior mobile engineer (Android/iOS). Review ONLY the provided diffs.\nProduce:\n1) High-level PR summary\n2) Findings grouped: Correctness, Performance, Security, Readability/Maintainability, Testing/Coverage\n3) Actionable suggestions (brief, with code snippet if needed)\n4) Risk Assessment: Low/Medium/High + pre-merge checklist\n5) TODOs / Follow-ups\nBe concise and avoid speculation beyond the diffs.\n"

/-- `PromptBuilder.make_prompt`, with the rubric text already loaded
(the loader itself is modelled separately; the builder only interpolates
its result). -/
def make_prompt (rubric_text pr_title pr_body : String)
    (file_summaries : List Prepared) : String :=
  let context_hint := detect_mobile_context file_summaries
  let files_block := pyJoin "\n\n" (file_summaries.map fileBlock)
  let pr_overview :=
    "PR TITLE: " ++ pr_title ++ "\n\nPR DESCRIPTION:\n" ++
    (if pr_body = "" then "(no description)" else pr_body)
  mobileGuidance ++ "\n\n" ++ rubric_text ++
  "\n\nDetected stack hints: " ++ context_hint ++
  "\n\n" ++ pr_overview ++
  "\n\n--- BEGIN DIFFS ---\n" ++ files_block ++ "\n--- END DIFFS ---\n"

/-! ### `rubric_loader.py` — RubricLoader -/

/-- Outcome of the oracle network fetch `requests.get(url, timeout=10)`
followed by `raise_for_status()`: either the body text, or an exception
(timeout, non-2xx status, connection error) carrying its message. -/
inductive FetchOutcome where
  | ok (text : String)
  | exc (msg : String)
deriving DecidableEq, Repr

/-- The fixed part of the fallback rubric before the interpolated URL. -/
def fallbackPre : String :=
  "\n# AI Mobile PR Review Rubric (Fallback)\n\n## Correctness\n- Android lifecycle & coroutines; iOS ARC & SwiftUI state; proper async/error handling.\n\n## Performance\n- Avoid UI-thread blocking; efficient Compose/SwiftUI updates; memory/caching.\n\n## Security\n- No hardcoded secrets; secure storage (EncryptedSharedPreferences/Keychain); TLS/HTTPS; WebView safety.\n\n## Readability / Maintainability\n- Clean architecture (MVVM/MVI); DI; idiomatic Kotlin/Swift.\n\n## Testing / Coverage\n- Unit tests for ViewModels/UseCases; UI tests; offline/retry edge cases.\n\n(⚠️ Failed to load rubric from "

/-- The fallback rubric f-string of `RubricLoader.load_rubric`, with the
URL and the exception text interpolated. -/
def fallback_rubric (rubric_url err : String) : String :=
  fallbackPre ++ rubric_url ++ ": " ++ err ++ ")\n"

/-- `RubricLoader.load_rubric`: the whole body is wrapped in
`try/except Exception`, so the function returns in every case. -/
def load_rubric (rubric_url : String) (fetch : FetchOutcome) : String :=
  if rubric_url ≠ "" then
    match fetch with
    | .ok t => t
    | .exc e => fallback_rubric rubric_url e
  else "No rubric URL provided."

/-! ### `config.py` — Config -/

/-- The configuration snapshot built by `Config.__init__` — exactly the
attributes that constructor assigns (string fields, plus the two numeric
tunables parsed with `int(...)`, modelled as `Nat` for the non-negative
values the defaults and claims concern). -/
structure Config where
  github_token : String
  repo : String
  event_path : String
  openai_api_key : String
  model_name : String
  max_patch_chars : Nat
  max_files : Nat
  file_globs : String
  rubric_url : String
deriving DecidableEq, Repr

/-- A Python exception value relevant to the modelled paths. -/
inductive PyError where
  | attributeError (msg : String)
deriving DecidableEq, Repr

/-- `str(e)` of a modelled exception. -/
def PyError.message : PyError → String
  | .attributeError m => m

/-- Python attribute lookup on a `Config` instance, for the string-valued
attributes.  `Config.__init__` assigns exactly the fields of `Config`;
reading any other name raises `AttributeError` — in particular
`slack_webhook_url`, which `PRReviewer.send_slack_alert` reads but no code
ever assigns. -/
def configAttr (cfg : Config) (name : String) : Except PyError String :=
  match name with
  | "github_token" => .ok cfg.github_token
  | "repo" => .ok cfg.repo
  | "event_path" => .ok cfg.event_path
  | "openai_api_key" => .ok cfg.openai_api_key
  | "model_name" => .ok cfg.model_name
  | "file_globs" => .ok cfg.file_globs
  | "rubric_url" => .ok cfg.rubric_url
  | _ => .error (.attributeError
      ("'Config' object has no attribute '" ++ name ++ "'"))

/-! ### `http_client.py` — GitHubClient pagination -/

/-- A changed-file JSON record as delivered by the code host; every field
is read with `.get`, so each is optional. -/
structure RawFile where
  filename : Option String
  status : Option String
  additions : Option Int
  deletions : Option Int
  patch : Option String
deriving DecidableEq, Repr

/-- The paginated loop of `GitHubClient.fetch_changed_files`, with the
server modelled as a map from page number to that page's item list and an
explicit fuel bound (the Python loop is `while True`; termination for a
finite listing is the subject of claim C7).  Returns `none` when the fuel
runs out before a short page is seen. -/
def fetchPages (server : Nat → List RawFile) :
    Nat → Nat → List RawFile → Option (List RawFile)
  | 0, _, _ => none
  | fuel + 1, page, files =>
    let chunk := server page
    if chunk.length < 100 then some (files ++ chunk)
    else fetchPages server fuel (page + 1) (files ++ chunk)

/-- `GitHubClient.fetch_changed_files(pr_number)`: pages of size 100,
starting at page 1, accumulating in order. -/
def fetch_changed_files (server : Nat → List RawFile) (fuel : Nat) :
    Option (List RawFile) :=
  fetchPages server fuel 1 []

/-! ### `reviewer.py` / `main.py` — PRReviewer orchestration -/

/-- The `pull_request` object of the event payload (fields read via `.get`). -/
structure PRObj where
  number : Option Int
  title : Option String
  body : Option String
  html_url : Option String
deriving DecidableEq, Repr

/-- The empty `pull_request` object substituted by
`self.event.get("pull_request") or {}`. -/
def emptyPR : PRObj := ⟨none, none, none, none⟩

/-- The triggering event payload. -/
structure Event where
  pull_request : Option PRObj
deriving DecidableEq, Repr

/-- The pull-request number extracted by `PRReviewer.__init__`. -/
def eventPrNumber (event : Event) : Option Int :=
  (event.pull_request.getD emptyPR).number

/-- Result of `PRReviewer.__init__`: either the constructor called
`sys.exit(0)` ("Not a PR event"), or the reviewer is ready with the
pull-request object and its number. -/
inductive InitResult where
  | exited (code : Nat)
  | ready (pr : PRObj) (number : Int)
deriving DecidableEq, Repr

/-- `PRReviewer.__init__` after loading the event: `if not self.pr_number:
sys.exit(0)`.  Python falsiness of the number: absent (`None`) or `0`. -/
def initReviewer (event : Event) : InitResult :=
  let pr := event.pull_request.getD emptyPR
  match pr.number with
  | none => .exited 0
  | some n => if n = 0 then .exited 0 else .ready pr n

/-- Whether a changed file survives the filter step of `PRReviewer.run`:
not ignored, and its sanitized patch is not empty/whitespace-only. -/
def eligibleFile (cfg : Config) (f : RawFile) : Bool :=
  !is_ignored cfg.file_globs (f.filename.getD "") &&
  !(pyStripStr (sanitize_patch (f.patch.getD "") cfg.max_patch_chars) = "")

/-- The record appended to `prepared` for a surviving file. -/
def prepFile (cfg : Config) (f : RawFile) : Prepared :=
  ⟨f.filename.getD "", f.status, f.additions, f.deletions,
   sanitize_patch (f.patch.getD "") cfg.max_patch_chars⟩

/-- The accumulation loop of `PRReviewer.run`: skip ignored files and
files whose sanitized patch strips to empty, append the rest, and break
as soon as `len(prepared) >= max_files` after an append. -/
def prepareGo (cfg : Config) : List RawFile → List Prepared → List Prepared
  | [], acc => acc
  | f :: fs, acc =>
    if is_ignored cfg.file_globs (f.filename.getD "") then prepareGo cfg fs acc
    else if pyStripStr (sanitize_patch (f.patch.getD "") cfg.max_patch_chars) = ""
      then prepareGo cfg fs acc
    else
      let acc' := acc ++ [prepFile cfg f]
      if cfg.max_files ≤ acc'.length then acc' else prepareGo cfg fs acc'

/-- The prepared-file list built by `PRReviewer.run`. -/
def prepareFiles (cfg : Config) (changed_files : List RawFile) : List Prepared :=
  prepareGo cfg changed_files []

/-- The fixed "nothing to review" comment. -/
def noEligibleComment : String :=
  "🤖 **AI Mobile PR Review**: No eligible text diffs to review (binary/ignored/empty)."

/-- The fixed header prepended to the model's review. -/
def reviewHeader : String := "### 🤖 AI Mobile PR Review\n"

/-- The fixed disclaimer footer appended to the model's review. -/
def reviewFooter : String :=
  "\n\n---\n_This is an automated mobile-focused review. Please verify suggestions before applying._"

/-- The failure comment posted by the `except` branch of `PRReviewer.run`. -/
def failureComment (e : String) : String :=
  "🤖 **AI Mobile PR Review** failed: `" ++ e ++ "`"

/-- The Slack message `PRReviewer.send_slack_alert` would build. -/
def slackMessageText (cfg : Config) (pr : PRObj) (review : String) : String :=
  "🚨 *High-Risk PR Alert*\nRepo: " ++ cfg.repo ++
  "\nPR: [" ++ (pr.title.getD "Untitled PR") ++ "](" ++ pr.html_url.getD "" ++
  ")\n\nReview Summary:\n```" ++ review.take 1000 ++ "...```\n[View Full PR](" ++
  pr.html_url.getD "" ++ ")"

/-- `PRReviewer.send_slack_alert`: early return when the risk is not
`"high"`; otherwise the first statement evaluates
`self.config.slack_webhook_url`, an attribute `Config` never assigns.
On success the result is the list of messages handed to the Alert
Gateway (`SlackClient.post_message`). -/
def send_slack_alert (cfg : Config) (pr : PRObj) (risk_level review : String) :
    Except PyError (List String) :=
  if risk_level ≠ "high" then .ok []
  else
    match configAttr cfg "slack_webhook_url" with
    | .error e => .error e
    | .ok _ => .ok [slackMessageText cfg pr review]

/-- `PRReviewer.openai_review`: the model call (an oracle from prompt to
either the raw message content or an exception message), then `.strip()`. -/
def openai_review (llm : String → Except String String) (prompt : String) :
    Except String String :=
  (llm prompt).map pyStripStr

/-- Observable effects of one `PRReviewer.run`: the PR comments posted via
the Code-Host Gateway, in order, and the messages handed to the Alert
Gateway. -/
structure RunResult where
  comments : List String
  slackPosts : List String
deriving DecidableEq, Repr

/-- `PRReviewer.run`, for a run whose changed-file fetch succeeded with
`changed_files` (fetch failures propagate uncaught and are outside the
`try` boundary modelled here; comment posts are modelled on their success
path).  The `try/except` covers the model call, the review comment post
and `send_slack_alert`; an exception there posts the failure comment. -/
def runReviewer (cfg : Config) (pr : PRObj) (changed_files : List RawFile)
    (llm : String → Except String String) (rubricFetch : FetchOutcome) :
    RunResult :=
  let prepared := prepareFiles cfg changed_files
  if prepared.isEmpty then ⟨[noEligibleComment], []⟩
  else
    let pr_title := pr.title.getD ""
    let pr_body := pr.body.getD ""
    let prompt :=
      make_prompt (load_rubric cfg.rubric_url rubricFetch) pr_title pr_body prepared
    match openai_review llm prompt with
    | .error e => ⟨[failureComment e], []⟩
    | .ok review =>
      let risk_level := parse_risk_level review
      let comment := reviewHeader ++ review ++ reviewFooter
      match send_slack_alert cfg pr risk_level review with
      | .ok posts => ⟨[comment], posts⟩
      | .error err => ⟨[comment, failureComment err.message], []⟩

/-- Observable outcome of the whole process (`main.py`): exit code,
posted comments, Alert Gateway messages. -/
structure ProgResult where
  exitCode : Nat
  comments : List String
  slackPosts : List String
deriving DecidableEq, Repr

/-- The entry point `main()` for a validated configuration: construct the
reviewer (whose constructor may `sys.exit(0)` on a non-PR event), run it,
then `sys.exit(0)`. -/
def mainRun (cfg : Config) (event : Event) (changed_files : List RawFile)
    (llm : String → Except String String) (rubricFetch : FetchOutcome) :
    ProgResult :=
  match initReviewer event with
  | .exited c => ⟨c, [], []⟩
  | .ready pr _ =>
    let r := runReviewer cfg pr changed_files llm rubricFetch
    ⟨0, r.comments, r.slackPosts⟩

/-! ### Concrete scenario data -/

/-- The default `FILE_GLOBS` value from `config.py`. -/
def defaultGlobs : String :=
  "*.kt,*.kts,*.java,*.xml,*.swift,*.m,*.mm,*.gradle,*.gradle.kts,*.pro,*.plist,*.md"

/-- A validated configuration with the documented defaults. -/
def c1Cfg : Config :=
  ⟨"ghtok", "Ahabdelhak/sample-app", "/tmp/event.json", "sk-key", "gpt-4o-mini",
   12000, 25, defaultGlobs,
   "https://raw.githubusercontent.com/Ahabdelhak/ai-mobile-pr-reviewer/main/rubric/mobile_review.md"⟩

/-- The same configuration with `MAX_FILES=0`. -/
def cap0Cfg : Config :=
  ⟨"ghtok", "Ahabdelhak/sample-app", "/tmp/event.json", "sk-key", "gpt-4o-mini",
   12000, 0, defaultGlobs,
   "https://raw.githubusercontent.com/Ahabdelhak/ai-mobile-pr-reviewer/main/rubric/mobile_review.md"⟩

/-- A pull-request object with a non-falsy number. -/
def c1PR : PRObj :=
  ⟨some 41, some "Add login screen", some "Implements the login flow.",
   some "https://github.com/Ahabdelhak/sample-app/pull/41"⟩

/-- A pull-request event carrying `c1PR`. -/
def c1Event : Event := ⟨some c1PR⟩

/-- One changed file `MainActivity.kt` with a short (50-character) diff. -/
def c1File : RawFile :=
  ⟨some "MainActivity.kt", some "modified", some 3, some 1,
   some "@@ -1,2 +1,3 @@\n+val session = login(user)\n done"⟩

/-- A model response containing an explicit high risk assessment. -/
def c1Review : String :=
  "Summary: touches the login flow.\n\nRisk Assessment: High\nChecklist: add tests."

/-- A model-call oracle that succeeds with `c1Review`. -/
def c1LLM : String → Except String String := fun _ => .ok c1Review

/-! ### Helper lemmas -/

theorem riskFind_eq_none_iff (s : List Char) :
    riskFind s = none ↔ ∀ t, t <:+ s → tryRiskAt t = none := by
  induction s with
  | nil =>
    simp only [riskFind, true_iff]
    intro t ht
    rw [List.suffix_nil.mp ht]
    decide
  | cons c rest ih =>
    cases h : tryRiskAt (c :: rest) with
    | some l =>
      simp only [riskFind, h]
      constructor
      · intro hc; exact absurd hc (by simp)
      · intro hall
        have := hall (c :: rest) List.suffix_rfl
        rw [h] at this; exact absurd this (by simp)
    | none =>
      simp only [riskFind, h]
      rw [ih]
      constructor
      · intro hall t ht
        rcases List.suffix_cons_iff.mp ht with rfl | ht'
        · exact h
        · exact hall t ht'
      · intro hall t ht
        exact hall t (ht.trans (List.suffix_cons c rest))

theorem riskFind_eq_some (s : List Char) (l : RiskLevel)
    (h : riskFind s = some l) : ∃ t, t <:+ s ∧ tryRiskAt t = some l := by
  induction s with
  | nil => simp [riskFind] at h
  | cons c rest ih =>
    cases h' : tryRiskAt (c :: rest) with
    | some l' =>
      simp only [riskFind, h'] at h
      injection h with h2
      subst h2
      exact ⟨c :: rest, List.suffix_rfl, h'⟩
    | none =>
      simp only [riskFind, h'] at h
      obtain ⟨t, ht, htry⟩ := ih h
      exact ⟨t, ht.trans (List.suffix_cons c rest), htry⟩

/-- Sections of the fallback rubric are substrings of its fixed prefix,
hence of the fallback for every URL and error message. -/
theorem infix_fallback (x : String) (hx : x.toList <:+: fallbackPre.toList)
    (url e : String) : x.toList <:+: (fallback_rubric url e).toList := by
  have hdata : (fallback_rubric url e).toList =
      fallbackPre.toList ++ (url ++ (": " ++ (e ++ ")\n"))).toList := by
    simp [fallback_rubric, String.toList, String.data_append]
  rw [hdata]
  exact hx.trans (List.prefix_append _ _).isInfix

/-- Splitting never creates characters: the characters of all lines plus
one boundary per line stay within the input length plus one. -/
theorem splitlines_sum_len_aux :
    ∀ n (s : List Char), s.length ≤ n →
      sumLens (pySplitlines s) + (pySplitlines s).length ≤ s.length + 1 := by
  intro n
  induction n with
  | zero =>
    intro s hs
    cases s with
    | nil => simp [pySplitlines, sumLens]
    | cons c cs => simp at hs
  | succ n ih =>
    intro s hs
    match s with
    | [] => simp [pySplitlines, sumLens]
    | [c] =>
      by_cases hb : isLineBreakChar c <;> simp [pySplitlines, hb, sumLens]
    | c :: c2 :: cs =>
      have hlen : cs.length + 2 ≤ n + 1 := by simpa using hs
      have h1 : cs.length ≤ n := by omega
      have h2 : (c2 :: cs).length ≤ n := by simp; omega
      by_cases hrn : c = '\r' ∧ c2 = '\n'
      · have := ih cs h1
        simp [pySplitlines, hrn, sumLens] at this ⊢
        omega
      · by_cases hb : isLineBreakChar c
        · have := ih (c2 :: cs) h2
          simp [pySplitlines, hrn, hb, sumLens] at this ⊢
          omega
        · have := ih (c2 :: cs) h2
          cases hp : pySplitlines (c2 :: cs) with
          | nil =>
            simp [pySplitlines, hrn, hb, hp, sumLens]
          | cons l ls =>
            simp [pySplitlines, hrn, hb, hp, sumLens] at this ⊢
            omega

theorem splitlines_sum_len (s : List Char) :
    sumLens (pySplitlines s) + (pySplitlines s).length ≤ s.length + 1 :=
  splitlines_sum_len_aux s.length s le_rfl

/-- Length of a `"\n"`-join: characters of the lines plus one separator
between consecutive lines. -/
theorem joinNL_len (ls : List (List Char)) (h : ls ≠ []) :
    (joinNL ls).length + 1 = sumLens ls + ls.length := by
  induction ls with
  | nil => contradiction
  | cons l ls ih =>
    cases ls with
    | nil => simp [joinNL, sumLens]
    | cons l2 ls2 =>
      have := ih (by simp)
      simp [joinNL, sumLens] at this ⊢
      omega

/-- Length of a `"\n"`-join, empty case included (truncated subtraction). -/
theorem joinNL_le (ls : List (List Char)) :
    (joinNL ls).length ≤ sumLens ls + ls.length - 1 := by
  cases ls with
  | nil => simp [joinNL]
  | cons l ls2 =>
    have := joinNL_len (l :: ls2) (by simp)
    omega

/-- Trimming a line adds at most one suffix, and only to long lines. -/
theorem trimLine_len (l : List Char) :
    (trimLine l).length ≤
      l.length + trimmedSuffix.length * (if 2000 < l.length then 1 else 0) := by
  unfold trimLine
  split
  next h =>
    simp only [List.length_append, List.length_take]
    omega
  next h => simp [h]

/-- Total length of the trimmed lines: the original total plus one suffix
per long line. -/
theorem sumLens_trim (L : List (List Char)) :
    sumLens (L.map trimLine) ≤
      sumLens L + trimmedSuffix.length * (L.countP (fun l => 2000 < l.length)) := by
  induction L with
  | nil => simp [sumLens]
  | cons l ls ih =>
    have hl := trimLine_len l
    by_cases h2000 : 2000 < l.length <;>
      simp [sumLens, List.countP_cons, h2000, Nat.mul_add, Nat.mul_one]
        at hl ih ⊢ <;>
      omega

/-! ### Claim theorems -/

/-- C4: `is_ignored(filename)` is true iff the filename matches one of the
fixed ignore patterns, or an eligible-extension glob list is configured
(non-empty) and the filename matches none of its suffix-anchored,
case-insensitive patterns; in particular an ignore-pattern match yields
true regardless of the glob list. -/
theorem is_ignored_spec (globs filename : String) :
    (is_ignored globs filename =
      (ignoreMatch filename.toList ||
        (!(globParts globs.toList).isEmpty &&
          !globSearch (globParts globs.toList) filename.toList))) ∧
    (ignoreMatch filename.toList = true → is_ignored globs filename = true) := by
  constructor
  · show (if ignoreMatch filename.toList then true
        else if !(globParts globs.toList).isEmpty &&
                !globSearch (globParts globs.toList) filename.toList then true
        else false) =
      (ignoreMatch filename.toList ||
        (!(globParts globs.toList).isEmpty &&
          !globSearch (globParts globs.toList) filename.toList))
    generalize ignoreMatch filename.toList = a
    generalize (globParts globs.toList).isEmpty = b
    generalize globSearch (globParts globs.toList) filename.toList = c
    cases a <;> cases b <;> cases c <;> rfl
  · intro h
    unfold is_ignored
    rw [if_pos h]

theorem is_ignored_spec_witness :
    is_ignored "" "app/build/output.apk" = true :=
  (is_ignored_spec "" "app/build/output.apk").2 (by decide)

/-- C3: the risk-label parser always returns one of "low"/"medium"/"high";
when the text contains a case-insensitive "Risk Assessment: Low/Medium/High"
statement (at some position, i.e. on some suffix) it returns that
statement's level lowercased; otherwise a standalone "High risk" phrase
yields "high"; otherwise "low". -/
theorem parse_risk_level_spec (s : String) :
    (parse_risk_level s = "low" ∨ parse_risk_level s = "medium" ∨
      parse_risk_level s = "high") ∧
    ((∃ t l, t <:+ s.toList ∧ tryRiskAt t = some l) →
      ∃ l, (∃ t, t <:+ s.toList ∧ tryRiskAt t = some l) ∧
        parse_risk_level s = lvlString l) ∧
    ((∀ t, t <:+ s.toList → tryRiskAt t = none) →
      highRiskStandalone s.toList = true → parse_risk_level s = "high") ∧
    ((∀ t, t <:+ s.toList → tryRiskAt t = none) →
      highRiskStandalone s.toList = false → parse_risk_level s = "low") := by
  have hpr : ∀ r : Option RiskLevel, riskFind s.toList = r →
      parse_risk_level s =
        (match r with
          | some l => lvlString l
          | none => if highRiskStandalone s.toList then "high" else "low") := by
    intro r hr
    unfold parse_risk_level
    rw [hr]
  refine ⟨?_, ?_, ?_, ?_⟩
  · cases h : riskFind s.toList with
    | some l =>
      rw [hpr _ h]
      cases l
      · exact Or.inl rfl
      · exact Or.inr (Or.inl rfl)
      · exact Or.inr (Or.inr rfl)
    | none =>
      rw [hpr _ h]
      cases hh : highRiskStandalone s.toList
      · exact Or.inl rfl
      · exact Or.inr (Or.inr rfl)
  · intro ⟨t, l, ht, htry⟩
    cases h : riskFind s.toList with
    | some l' =>
      exact ⟨l', riskFind_eq_some _ _ h, hpr _ h⟩
    | none =>
      have := (riskFind_eq_none_iff s.toList).mp h t ht
      rw [htry] at this
      exact absurd this (by simp)
  · intro hall hh
    have hn : riskFind s.toList = none := (riskFind_eq_none_iff s.toList).mpr hall
    rw [hpr _ hn, if_pos hh]
  · intro hall hh
    have hn : riskFind s.toList = none := (riskFind_eq_none_iff s.toList).mpr hall
    rw [hpr _ hn, hh]
    rfl

theorem parse_risk_level_spec_witness :
    ∃ l, (∃ t, t <:+ ("Risk Assessment: Medium").toList ∧ tryRiskAt t = some l) ∧
      parse_risk_level "Risk Assessment: Medium" = lvlString l :=
  (parse_risk_level_spec "Risk Assessment: Medium").2.1
    ⟨("Risk Assessment: Medium").toList, .medium, List.suffix_rfl, by decide⟩

/-- C2 counterexample: when no rubric location is configured, `load_rubric`
returns the fixed string "No rubric URL provided.", not the fallback rubric
document — the result does not even contain "Correctness". -/
theorem load_rubric_no_url_counterexample :
    load_rubric "" (.ok "irrelevant") = "No rubric URL provided." ∧
    ¬ (("Correctness").toList <:+: (load_rubric "" (.ok "irrelevant")).toList) := by
  constructor
  · rfl
  · decide

/-- C2 amended: `load_rubric` returns in every case (never raises past its
boundary); whenever the fetch fails it returns the fixed fallback rubric —
covering correctness, performance, security, maintainability and testing —
annotated with the URL and failure reason; when no rubric location is
configured it returns the fixed string "No rubric URL provided." instead. -/
theorem load_rubric_spec (url e : String) (f : FetchOutcome) (h : url ≠ "") :
    load_rubric url (.exc e) = fallback_rubric url e ∧
    ("## Correctness").toList <:+: (load_rubric url (.exc e)).toList ∧
    ("## Performance").toList <:+: (load_rubric url (.exc e)).toList ∧
    ("## Security").toList <:+: (load_rubric url (.exc e)).toList ∧
    ("## Readability / Maintainability").toList <:+:
      (load_rubric url (.exc e)).toList ∧
    ("## Testing / Coverage").toList <:+: (load_rubric url (.exc e)).toList ∧
    load_rubric "" f = "No rubric URL provided." := by
  have heq : load_rubric url (.exc e) = fallback_rubric url e := by
    simp [load_rubric, h]
  refine ⟨heq, ?_, ?_, ?_, ?_, ?_, rfl⟩ <;>
    (rw [heq]; exact infix_fallback _ (by decide) url e)

theorem load_rubric_spec_witness :
    load_rubric "https://example.invalid/rubric.md" (.exc "timeout") =
      fallback_rubric "https://example.invalid/rubric.md" "timeout" ∧
    ("## Correctness").toList <:+:
      (load_rubric "https://example.invalid/rubric.md" (.exc "timeout")).toList :=
  ⟨(load_rubric_spec "https://example.invalid/rubric.md" "timeout" (.ok "")
      (by decide)).1,
   (load_rubric_spec "https://example.invalid/rubric.md" "timeout" (.ok "")
      (by decide)).2.1⟩

/-- C8: an event payload with no pull-request number makes the orchestrator
a clean no-op: exit status 0, no comments posted, no alert messages. -/
theorem noop_exit_on_non_pr (cfg : Config) (event : Event)
    (changed : List RawFile) (llm : String → Except String String)
    (rf : FetchOutcome) (h : eventPrNumber event = none) :
    mainRun cfg event changed llm rf = ⟨0, [], []⟩ := by
  unfold eventPrNumber at h
  simp [mainRun, initReviewer, h]

theorem noop_exit_on_non_pr_witness :
    mainRun c1Cfg ⟨none⟩ [c1File] c1LLM (.ok "RUBRIC") = ⟨0, [], []⟩ :=
  noop_exit_on_non_pr c1Cfg ⟨none⟩ [c1File] c1LLM (.ok "RUBRIC") (by decide)

/-- C10: the no-op check tests Python falsiness of the pull-request number,
so number 0 behaves exactly like a missing/null `pull_request`; the exit is
signalled by `sys.exit(0)` inside the constructor (`initReviewer` yields
`exited 0`), before `run()` is ever invoked. -/
theorem falsy_pr_number_constructor_exit (cfg : Config) (event : Event)
    (changed : List RawFile) (llm : String → Except String String)
    (rf : FetchOutcome)
    (h : eventPrNumber event = none ∨ eventPrNumber event = some 0) :
    initReviewer event = .exited 0 ∧
    mainRun cfg event changed llm rf = ⟨0, [], []⟩ ∧
    mainRun cfg event changed llm rf = mainRun cfg ⟨none⟩ changed llm rf := by
  unfold eventPrNumber at h
  have hinit : initReviewer event = .exited 0 := by
    rcases h with h | h <;> simp [initReviewer, h]
  refine ⟨hinit, ?_, ?_⟩
  · unfold mainRun
    rw [hinit]
  · unfold mainRun
    rw [hinit]
    rfl

theorem falsy_pr_number_constructor_exit_witness :
    initReviewer ⟨some ⟨some 0, some "T", some "B", some "U"⟩⟩ = .exited 0 ∧
    mainRun c1Cfg ⟨some ⟨some 0, some "T", some "B", some "U"⟩⟩ [c1File] c1LLM
        (.ok "RUBRIC") = ⟨0, [], []⟩ ∧
    mainRun c1Cfg ⟨some ⟨some 0, some "T", some "B", some "U"⟩⟩ [c1File] c1LLM
        (.ok "RUBRIC") =
      mainRun c1Cfg ⟨none⟩ [c1File] c1LLM (.ok "RUBRIC") :=
  falsy_pr_number_constructor_exit c1Cfg _ [c1File] c1LLM (.ok "RUBRIC")
    (Or.inr (by decide))

/-- C5: the sanitized patch is at most `max_chars` characters long plus one
fixed trim suffix per over-2000-character line, and every output line is
either at most 2000 characters or a 2000-character-capped prefix with the
trim suffix appended. -/
theorem sanitize_patch_spec (patch : String) (max_chars : Nat) :
    (sanitize_patch patch max_chars).length ≤
      max_chars + trimmedSuffix.length * overLongCount patch max_chars ∧
    ∀ l ∈ sanitizeLines patch max_chars,
      l.length ≤ 2000 ∨ ∃ l0 : List Char, l = l0.take 2000 ++ trimmedSuffix := by
  constructor
  · by_cases hp : patch = ""
    · simp [sanitize_patch, hp]
    · rw [sanitize_patch, if_neg hp]
      have hlen : ((joinNL (sanitizeLines patch max_chars)).asString).length =
          (joinNL (sanitizeLines patch max_chars)).length := rfl
      rw [hlen]
      have hj := joinNL_le (sanitizeLines patch max_chars)
      have hs := sumLens_trim (pySplitlines (patch.toList.take max_chars))
      have hsp := splitlines_sum_len (patch.toList.take max_chars)
      have htk : (patch.toList.take max_chars).length ≤ max_chars := by
        simp [List.length_take]
      have hmap : (sanitizeLines patch max_chars).length =
          (pySplitlines (patch.toList.take max_chars)).length := by
        simp [sanitizeLines]
      have hsum : sumLens (sanitizeLines patch max_chars) =
          sumLens ((pySplitlines (patch.toList.take max_chars)).map trimLine) :=
        rfl
      have hcount : overLongCount patch max_chars =
          (pySplitlines (patch.toList.take max_chars)).countP
            (fun l => 2000 < l.length) := rfl
      rw [hcount]
      rw [hsum, hmap] at hj
      omega
  · intro l hl
    unfold sanitizeLines at hl
    obtain ⟨l0, _, rfl⟩ := List.mem_map.mp hl
    unfold trimLine
    split
    next h =>
      right
      exact ⟨l0, rfl⟩
    next h =>
      left
      omega

/-- The filter loop of `PRReviewer.run` with a partially filled accumulator:
while the accumulator is below the cap, the loop extends it with the next
eligible files up to the cap. -/
theorem prepareGo_spec (cfg : Config) :
    ∀ (files : List RawFile) (acc : List Prepared),
      acc.length < cfg.max_files →
      prepareGo cfg files acc =
        acc ++ ((files.filter (eligibleFile cfg)).take
          (cfg.max_files - acc.length)).map (prepFile cfg) := by
  intro files
  induction files with
  | nil => intro acc h; simp [prepareGo]
  | cons f fs ih =>
    intro acc hacc
    by_cases hig : is_ignored cfg.file_globs (f.filename.getD "")
    · have helig : eligibleFile cfg f = false := by
        simp [eligibleFile, hig]
      rw [prepareGo, if_pos hig, ih acc hacc, List.filter_cons_of_neg (by simp [helig])]
    · by_cases hstrip :
        pyStripStr (sanitize_patch (f.patch.getD "") cfg.max_patch_chars) = ""
      · have helig : eligibleFile cfg f = false := by
          simp [eligibleFile, hig, hstrip]
        rw [prepareGo, if_neg hig, if_pos hstrip, ih acc hacc,
          List.filter_cons_of_neg (by simp [helig])]
      · have helig : eligibleFile cfg f = true := by
          simp [eligibleFile, hig, hstrip]
        rw [prepareGo, if_neg hig, if_neg hstrip,
          List.filter_cons_of_pos (by simp [helig])]
        obtain ⟨d, hd⟩ : ∃ d, cfg.max_files - acc.length = d + 1 :=
          ⟨cfg.max_files - acc.length - 1, by omega⟩
        rw [hd, List.take_succ_cons, List.map_cons]
        by_cases hbreak : cfg.max_files ≤ (acc ++ [prepFile cfg f]).length
        · have : d = 0 := by
            simp at hbreak
            omega
          subst this
          rw [if_pos hbreak]
          simp
        · rw [if_neg hbreak]
          have hlt : (acc ++ [prepFile cfg f]).length < cfg.max_files := by
            omega
          rw [ih _ hlt]
          have : cfg.max_files - (acc ++ [prepFile cfg f]).length = d := by
            simp
            omega
          rw [this]
          simp

/-- C6 counterexample: with a configured max-file count of 0, a single
eligible changed file still yields one prepared file — the cap check runs
only after an append, so the claimed bound `length ≤ max_files` fails. -/
theorem prepareFiles_cap_zero_counterexample :
    (prepareFiles cap0Cfg [c1File]).length = 1 ∧
    ¬ ((prepareFiles cap0Cfg [c1File]).length ≤ cap0Cfg.max_files) := by
  constructor
  · decide
  · decide

/-- C6 amended: provided the configured max-file count is at least 1, the
prepared list is exactly the eligible files (not ignored, sanitized diff
not empty/whitespace-only) in order of first appearance, truncated at the
cap; its length never exceeds the cap; and once the cap is reached within
a prefix of the listing, any remaining changed files do not affect the
result (they are never evaluated). -/
theorem prepareFiles_spec (cfg : Config) (files : List RawFile)
    (h : 1 ≤ cfg.max_files) :
    prepareFiles cfg files =
      ((files.filter (eligibleFile cfg)).take cfg.max_files).map (prepFile cfg) ∧
    (prepareFiles cfg files).length ≤ cfg.max_files ∧
    (∀ more : List RawFile,
      cfg.max_files ≤ (files.filter (eligibleFile cfg)).length →
      prepareFiles cfg (files ++ more) = prepareFiles cfg files) := by
  have hbase := prepareGo_spec cfg files [] (by simpa using h)
  have hmain : prepareFiles cfg files =
      ((files.filter (eligibleFile cfg)).take cfg.max_files).map (prepFile cfg) := by
    simpa [prepareFiles] using hbase
  refine ⟨hmain, ?_, ?_⟩
  · rw [hmain]
    simp [List.length_take]
  · intro more hcap
    have hbase' := prepareGo_spec cfg (files ++ more) [] (by simpa using h)
    have hmain' : prepareFiles cfg (files ++ more) =
        (((files ++ more).filter (eligibleFile cfg)).take cfg.max_files).map
          (prepFile cfg) := by
      simpa [prepareFiles] using hbase'
    rw [hmain, hmain', List.filter_append,
      List.take_append_of_le_length hcap]

theorem prepareFiles_spec_witness :
    (prepareFiles c1Cfg [c1File]).length ≤ c1Cfg.max_files :=
  (prepareFiles_spec c1Cfg [c1File] (by decide)).2.1

/-- One step of the page accounting for the pagination lemma below. -/
theorem fetchPages_spec (server : Nat → List RawFile) :
    ∀ (m fuel page : Nat) (acc : List RawFile), m < fuel →
      (server (page + m)).length < 100 →
      (∀ j, j < m → 100 ≤ (server (page + j)).length) →
      fetchPages server fuel page acc =
        some (acc ++ ((List.range' page (m + 1)).map server).flatten) := by
  intro m
  induction m with
  | zero =>
    intro fuel page acc hfuel hshort _
    obtain ⟨f, rfl⟩ : ∃ f, fuel = f + 1 := ⟨fuel - 1, by omega⟩
    rw [fetchPages]
    rw [if_pos (by simpa using hshort)]
    simp [List.range']
  | succ m ih =>
    intro fuel page acc hfuel hshort hlong
    obtain ⟨f, rfl⟩ : ∃ f, fuel = f + 1 := ⟨fuel - 1, by omega⟩
    rw [fetchPages]
    rw [if_neg (by have := hlong 0 (by omega); simp at this ⊢; omega)]
    have hshort' : (server (page + 1 + m)).length < 100 := by
      have : page + 1 + m = page + (m + 1) := by omega
      rw [this]
      exact hshort
    have hlong' : ∀ j, j < m → 100 ≤ (server (page + 1 + j)).length := by
      intro j hj
      have : page + 1 + j = page + (j + 1) := by omega
      rw [this]
      exact hlong (j + 1) (by omega)
    rw [ih f (page + 1) (acc ++ server page) (by omega) hshort' hlong']
    simp [List.range'_succ]

/-- C7: whenever some page holds fewer than 100 items, the pagination loop
of `fetch_changed_files` terminates: there is a cut-off page `k` — the
first page with fewer than 100 items — such that for every sufficient fuel
bound the loop returns exactly the concatenation, in order, of pages 1
through `k`, having requested pages sequentially from page 1. -/
theorem fetch_changed_files_terminates (server : Nat → List RawFile)
    (h : ∃ n, (server (n + 1)).length < 100) :
    ∃ k, 1 ≤ k ∧ (server k).length < 100 ∧
      (∀ j, 1 ≤ j → j < k → 100 ≤ (server j).length) ∧
      ∀ fuel, k ≤ fuel →
        fetch_changed_files server fuel =
          some (((List.range' 1 k).map server).flatten) := by
  classical
  obtain ⟨m, hm⟩ := h
  let P : Nat → Prop := fun n => (server (n + 1)).length < 100
  have hP : ∃ n, P n := ⟨m, hm⟩
  refine ⟨Nat.find hP + 1, by omega, Nat.find_spec hP, ?_, ?_⟩
  · intro j hj1 hjk
    obtain ⟨i, rfl⟩ : ∃ i, j = i + 1 := ⟨j - 1, by omega⟩
    have : ¬ P i := Nat.find_min hP (by omega)
    simpa [P, Nat.not_lt] using this
  · intro fuel hfuel
    unfold fetch_changed_files
    rw [fetchPages_spec server (Nat.find hP) fuel 1 [] (by omega)
      (by have := Nat.find_spec hP; simpa [P, Nat.add_comm] using this)
      (by
        intro j hj
        have : ¬ P j := Nat.find_min hP hj
        simpa [P, Nat.not_lt, Nat.add_comm] using this)]
    simp

theorem fetch_changed_files_terminates_witness :
    ∃ k, 1 ≤ k ∧ ((fun _ => ([] : List RawFile)) k).length < 100 ∧
      (∀ j, 1 ≤ j → j < k → 100 ≤ ((fun _ => ([] : List RawFile)) j).length) ∧
      ∀ fuel, k ≤ fuel →
        fetch_changed_files (fun _ => ([] : List RawFile)) fuel =
          some (((List.range' 1 k).map (fun _ => ([] : List RawFile))).flatten) :=
  fetch_changed_files_terminates (fun _ => ([] : List RawFile)) ⟨0, by decide⟩

/-- Every hint label the detector can append is a non-empty string. -/
theorem hintsOf_mem_ne (fs : List Prepared) : ∀ x ∈ hintsOf fs, x ≠ "" := by
  intro x hx
  unfold hintsOf at hx
  simp only [List.mem_append] at hx
  rcases hx with ((((h | h) | h) | h) | h) | h <;>
    (split at h <;> simp at h <;> subst h <;> decide)

/-- Joining non-empty strings with `", "` yields a non-empty string. -/
theorem pyJoin_ne (hs : List String) (h : ∀ x ∈ hs, x ≠ "") (hne : hs ≠ []) :
    pyJoin ", " hs ≠ "" := by
  cases hs with
  | nil => contradiction
  | cons x xs =>
    cases xs with
    | nil => simpa [pyJoin] using h x (by simp)
    | cons y ys =>
      intro hcontra
      have hlen := congrArg String.length hcontra
      simp only [pyJoin, String.length_append] at hlen
      have h2 : (", " : String).length = 2 := rfl
      have h0 : ("" : String).length = 0 := rfl
      rw [h2, h0] at hlen
      omega

/-- C9: the prompt builder is deterministic — identical inputs (rubric text,
title, body, prepared files) give byte-identical output — and the detected
stack-hint list is deduplicated and sorted, with the generic
"Mobile (Android/iOS) code" label substituted when no hint matches. -/
theorem make_prompt_deterministic (rubric_text pr_title pr_body : String)
    (files : List Prepared) :
    make_prompt rubric_text pr_title pr_body files =
      make_prompt rubric_text pr_title pr_body files ∧
    ∃ hs : List String, hs.Sorted (· ≤ ·) ∧ hs.Nodup ∧
      List.Perm hs ((hintsOf files).dedup) ∧
      detect_mobile_context files =
        (if hs.isEmpty then "Mobile (Android/iOS) code" else pyJoin ", " hs) := by
  refine ⟨rfl, List.insertionSort (· ≤ ·) (hintsOf files).dedup, ?_, ?_, ?_, ?_⟩
  · exact List.sorted_insertionSort (· ≤ ·) _
  · exact ((List.perm_insertionSort (· ≤ ·) _).nodup_iff).mpr
      (List.nodup_dedup _)
  · exact List.perm_insertionSort (· ≤ ·) _
  · unfold detect_mobile_context
    set hs := List.insertionSort (· ≤ ·) (hintsOf files).dedup with hhs
    have hmem : ∀ x ∈ hs, x ≠ "" := by
      intro x hx
      have hx' : x ∈ (hintsOf files).dedup :=
        ((List.perm_insertionSort (· ≤ ·) _).mem_iff).mp hx
      exact hintsOf_mem_ne files x (List.mem_dedup.mp hx')
    by_cases hemp : hs = []
    · rw [hemp]
      simp [pyJoin]
    · have hjoin : pyJoin ", " hs ≠ "" := pyJoin_ne hs hmem hemp
      rw [if_neg hjoin, if_neg (by simpa using hemp)]

/-- C1 (code-bug evidence): a run with one prepared file whose model call
succeeds with a review containing "Risk Assessment: High" parses the risk
label as "high" and posts the review comment, but the Alert Gateway is
never invoked (zero Slack messages): `send_slack_alert` reads the
nonexistent `Config.slack_webhook_url` attribute, the resulting
`AttributeError` is caught at the run boundary, and a second, failure
comment is posted instead. -/
theorem high_risk_alert_never_fires :
    parse_risk_level c1Review = "high" ∧
    mainRun c1Cfg c1Event [c1File] c1LLM (.ok "RUBRIC TEXT") =
      ⟨0,
       [reviewHeader ++ c1Review ++ reviewFooter,
        failureComment "'Config' object has no attribute 'slack_webhook_url'"],
       []⟩ := by
  constructor
  · decide
  · decide

end PRReviewerModel
